import Mathlib

/-!
Shallow embedding of the core of `src/app.py` (market dashboard):
the Position Normalizer (`parse_positions_csv`), the Earnings Resolver
(`fetch_next_earnings_date`) and the Earnings Table Builder
(`make_earnings_table`), together with theorems settling the spec claims.

Modelling conventions:
* A pandas cell is a `Value`: a string, a (rational) number, a parsed
  calendar date (an abstract day number), or a null (NaN/None/NaT).
* A pandas `DataFrame` is a column-name list plus rows given as
  association lists from column name to `Value`.
* The external permissive date parser (`dateutil.parser.parse`, a
  third-party collaborator that is not part of this repository) is a
  parameter `dparse : String → Option Int`; `none` models the parser
  raising on unparseable text.
* Machine floats of `pd.to_numeric` are modelled as rationals; the
  numeric-literal grammar covers signed decimal literals (exponents and
  infinities do not occur in any claim).
-/

/-- A single pandas cell value. `vNull` stands for NaN/None/NaT. -/
inductive Value where
  | vStr (s : String)
  | vNum (q : Rat)
  | vDate (d : Int)
  | vNull
deriving DecidableEq, Repr

/-- Python `str(x)` on a cell. `str` of a parsed date renders it (injectively)
as its ISO text, modelled by `dateToStr`; `str` of a NaN gives "nan". -/
def dateToStr (d : Int) : String := toString d

def pyStr : Value → String
  | .vStr s => s
  | .vNum q => toString q
  | .vDate d => dateToStr d
  | .vNull => "nan"

/-- Drop whitespace from both ends of a character list (Python `str.strip()`). -/
def trimChars (cs : List Char) : List Char :=
  ((cs.dropWhile Char.isWhitespace).reverse.dropWhile Char.isWhitespace).reverse

/-- Python `str.upper()`. -/
def pyUpper (s : String) : String := String.mk (s.data.map Char.toUpper)

/-- Python `str.strip()`. -/
def pyStrip (s : String) : String := String.mk (trimChars s.data)

/-- Parse a (nonempty) digit string to a natural number, as Python float/int
literal digits. Fails on any non-digit character. -/
def parseNatDigits (cs : List Char) : Option Nat :=
  if cs.isEmpty then none
  else cs.foldlM (fun acc c => if c.isDigit then some (acc * 10 + (c.toNat - 48)) else none) 0

/-- Parse an unsigned decimal literal (digits, optional single point) to a
numerator-denominator pair. -/
def parseUnsignedRat (cs : List Char) : Option (Nat × Nat) :=
  let intp := cs.takeWhile (fun c => c != '.')
  let rest := cs.dropWhile (fun c => c != '.')
  match rest with
  | [] => (parseNatDigits intp).map (fun n => (n, 1))
  | _ :: frac =>
    if frac.any (fun c => c == '.') then none
    else if intp.isEmpty && frac.isEmpty then none
    else do
      let ip ← if intp.isEmpty then some 0 else parseNatDigits intp
      let fp ← if frac.isEmpty then some 0 else parseNatDigits frac
      some (ip * 10 ^ frac.length + fp, 10 ^ frac.length)

/-- Python numeric-text parsing as used by `pd.to_numeric`: optional sign,
decimal literal, surrounding whitespace tolerated. -/
def strToRat (s : String) : Option Rat :=
  match trimChars s.data with
  | '-' :: cs => (parseUnsignedRat cs).map (fun p => mkRat (-(p.1 : Int)) p.2)
  | '+' :: cs => (parseUnsignedRat cs).map (fun p => mkRat p.1 p.2)
  | cs => (parseUnsignedRat cs).map (fun p => mkRat p.1 p.2)

/-- Elementwise `pd.to_numeric(-, errors="coerce")`: numbers pass through,
numeric text parses, everything else coerces to NaN. -/
def toNumeric : Value → Value
  | .vNum q => .vNum q
  | .vStr s => match strToRat s with
    | some q => .vNum q
    | none => .vNull
  | _ => .vNull

/-- Elementwise `.str.upper().str.strip()`: on a string, uppercase then trim;
on any non-string cell the pandas `.str` accessor yields NaN. -/
def stripUpper : Value → Value
  | .vStr s => .vStr (pyStrip (pyUpper s))
  | _ => .vNull

/-- Elementwise `.astype(str)`: every cell becomes its `str` text
(a NaN becomes the literal string "nan"). -/
def astypeStr (v : Value) : Value := .vStr (pyStr v)

/-- A DataFrame row: association list from column name to cell value. -/
abbrev Row := List (String × Value)

/-- Read a cell; a column the row does not carry reads as null. -/
def getCell (r : Row) (c : String) : Value :=
  match r.find? (fun p => p.1 == c) with
  | some p => p.2
  | none => .vNull

/-- Write a cell: replace the first binding of the column, else append it. -/
def setCell : Row → String → Value → Row
  | [], c, v => [(c, v)]
  | (c', v') :: rest, c, v =>
    if c' == c then (c, v) :: rest else (c', v') :: setCell rest c v

/-- A pandas DataFrame: declared columns plus rows. -/
structure DataFrame where
  cols : List String
  rows : List Row
deriving DecidableEq, Repr

/-- Exceptions `parse_positions_csv` can raise: the explicit
`ValueError(f"Missing required columns: {missing}")` carrying the missing
column names, and `dateutil.parser`'s error on unparseable date text. -/
inductive PyError where
  | valueError (missing : List String)
  | parserError
deriving DecidableEq, Repr

/-- Apply a per-cell function to one column of every row, as a pandas
column assignment `out[c] = out[c].map-like(f)`. -/
def mapCol (df : DataFrame) (c : String) (f : Value → Value) : DataFrame :=
  { df with rows := df.rows.map (fun r => setCell r c (f (getCell r c))) }

/-- One row of `out["date"].apply(lambda x: dtparser.parse(str(x)).date())`:
parse the `str` text of the date cell; an unparseable text raises. -/
def dateApply (dparse : String → Option Int) (r : Row) : Except PyError Row :=
  match dparse (pyStr (getCell r "date")) with
  | some d => .ok (setCell r "date" (.vDate d))
  | none => .error .parserError

/-- Sequence a fallible row transform over all rows, propagating the first
raised exception (as `Series.apply` does). -/
def traverseRows (f : Row → Except PyError Row) : List Row → Except PyError (List Row)
  | [] => .ok []
  | r :: rs =>
    match f r with
    | .error e => .error e
    | .ok r' =>
      match traverseRows f rs with
      | .error e => .error e
      | .ok rs' => .ok (r' :: rs')

/-- The date-column assignment of `parse_positions_csv`. -/
def dateStep (dparse : String → Option Int) (df : DataFrame) : Except PyError DataFrame :=
  match traverseRows (dateApply dparse) df.rows with
  | .error e => .error e
  | .ok rs => .ok { df with rows := rs }

/-- The conditional `if "notes" not in out.columns: out["notes"] = ""`. -/
def notesStep (df : DataFrame) : DataFrame :=
  if df.cols.contains "notes" then df
  else { cols := df.cols ++ ["notes"],
         rows := df.rows.map (fun r => setCell r "notes" (.vStr "")) }

/-- Keep a row iff none of notional, ticker, date is null. -/
def rowKept (r : Row) : Bool :=
  !(getCell r "notional" == Value.vNull) && !(getCell r "ticker" == Value.vNull)
    && !(getCell r "date" == Value.vNull)

/-- The final `out.dropna(subset=["notional", "ticker", "date"])`. -/
def dropnaStep (df : DataFrame) : DataFrame :=
  { df with rows := df.rows.filter rowKept }

/-- The required columns, in the order the source lists them. -/
def required : List String := ["date", "ticker", "notional", "type", "source"]

/-- The Position Normalizer `parse_positions_csv` of `src/app.py`, lines
52-79, parameterized by the external permissive date parser `dparse`.
Column steps happen in source order: schema check, copy, date, ticker,
notional, type, source, notes default, dropna. -/
def parse_positions_csv (dparse : String → Option Int) (df : DataFrame) :
    Except PyError DataFrame :=
  let missing := required.filter (fun c => !(df.cols.contains c))
  if missing.isEmpty then
    match dateStep dparse df with
    | .error e => .error e
    | .ok d1 =>
      let d2 := mapCol d1 "ticker" stripUpper
      let d3 := mapCol d2 "notional" toNumeric
      let d4 := mapCol d3 "type" astypeStr
      let d5 := mapCol d4 "source" astypeStr
      let d6 := notesStep d5
      .ok (dropnaStep d6)
  else .error (.valueError missing)

/-- A pandas timestamp: an instant (day-granular integer; UTC instant when
timezone-aware, wall-clock value when naive) plus an optional timezone tag. -/
structure Timestamp where
  instant : Int
  tz : Option Int
deriving DecidableEq, Repr

/-- Interpret a naive timestamp as UTC (`tz_localize('UTC')`). -/
def tz_localize_utc (t : Timestamp) : Timestamp := { t with tz := some 0 }

/-- Convert an aware timestamp to another timezone (`tz_convert`): the
instant is unchanged, only the tag moves. -/
def tz_convert (t : Timestamp) (z : Int) : Timestamp := { t with tz := some z }

/-- Python comparison of two pandas timestamps: comparing a naive with an
aware timestamp raises a TypeError (modelled as `none`); otherwise aware
timestamps compare by UTC instant and naive ones by wall-clock value. -/
def tsGE (a b : Timestamp) : Option Bool :=
  if a.tz.isSome == b.tz.isSome then some (decide (b.instant ≤ a.instant)) else none

/-- The provider's earnings history/schedule DataFrame (`tk.earnings_dates`):
a date index sharing one optional timezone, whether the confidence-flag
column "EP" exists, and rows as (index instant, "EP" cell) in index order. -/
structure SchedDF where
  tz : Option Int
  hasEP : Bool
  rows : List (Int × Value)
deriving DecidableEq, Repr

/-- The provider's calendar view (`tk.calendar`): either not a DataFrame at
all, or a DataFrame indexed by field name whose first column holds, for each
field, a date or NaT (`none`). -/
inductive CalResult where
  | notDF
  | df (entries : List (String × Option Int))
deriving DecidableEq, Repr

/-- The provider's schedule view result. -/
inductive SchedResult where
  | notDF
  | df (s : SchedDF)
deriving DecidableEq, Repr

/-- Outcome of one provider call: a value, or an exception in flight. -/
inductive PReq (α : Type) where
  | ok (a : α)
  | raises
deriving DecidableEq

/-- The external market-data provider (collaborator), per ticker. -/
structure Provider where
  calendar : String → PReq CalResult
  earningsDates : String → PReq SchedResult

/-- The calendar branch of `fetch_next_earnings_date` (lines 26-32):
`some r` means the branch returned `r`; `none` means control falls through
to the schedule query. A present but null "Earnings Date" returns
`(None, "unknown")` rather than falling through. A non-null date comes back
through `pd.to_datetime(dt).to_pydatetime()` as a NAIVE datetime, so it
carries no timezone tag. -/
def calStep : CalResult → Option (Option Timestamp × String)
  | .notDF => none
  | .df entries =>
    if entries.isEmpty then none
    else
      match entries.find? (fun p => p.1 == "Earnings Date") with
      | none => none
      | some (_, none) => some (none, "unknown")
      | some (_, some d) => some (some { instant := d, tz := none }, "estimated")

/-- Lines 37-40: `today = pd.Timestamp.today().normalize()`, then localized
to UTC and converted to the index timezone when the index is aware. -/
def normalizedToday (tz : Option Int) (today : Int) : Timestamp :=
  let t0 : Timestamp := { instant := today, tz := none }
  match tz with
  | some z => tz_convert (tz_localize_utc t0) z
  | none => t0

/-- The vectorized filter `ed[ed.index >= today]`, preserving index order;
`none` models the comparison raising on a naive/aware mismatch. -/
def filterFuture (rows : List (Int × Value)) (rtz : Option Int) (today : Timestamp) :
    Option (List (Int × Value)) :=
  match rows with
  | [] => some []
  | (d, v) :: rest =>
    match tsGE { instant := d, tz := rtz } today with
    | none => none
    | some b =>
      (filterFuture rest rtz today).map (fun f => if b then (d, v) :: f else f)

/-- The schedule branch of `fetch_next_earnings_date` (lines 34-46):
`ok (some r)` means it returned `r`, `ok none` means it fell through to the
final `return None, "unknown"`, `error` means an exception was raised. The
returned `future.index[0].to_pydatetime()` KEEPS the index's timezone tag. -/
def schedStep (sr : SchedResult) (today : Int) :
    Except Unit (Option (Option Timestamp × String)) :=
  match sr with
  | .notDF => .ok none
  | .df s =>
    if s.rows.isEmpty then .ok none
    else
      match filterFuture s.rows s.tz (normalizedToday s.tz today) with
      | none => .error ()
      | some [] => .ok none
      | some ((d, v) :: _) =>
        .ok (some (some { instant := d, tz := s.tz },
          if s.hasEP then pyStr v else "estimated"))

/-- What the resolver produces once the calendar branch has fallen through:
query the schedule view, absorbing any exception into `(None, "error")`. -/
def scheduleOutcome (p : Provider) (today : Int) (t : String) :
    Option Timestamp × String :=
  match p.earningsDates t with
  | .raises => (none, "error")
  | .ok sr =>
    match schedStep sr today with
    | .error _ => (none, "error")
    | .ok (some r) => r
    | .ok none => (none, "unknown")

/-- The Earnings Resolver `fetch_next_earnings_date` of `src/app.py`, lines
11-50: calendar view first, then the earnings history/schedule view; any
exception raised by a provider call is caught and becomes `(None, "error")`.
A date from the calendar branch is naive, one from the schedule branch
carries the schedule's timezone tag. -/
def fetch_next_earnings_date (p : Provider) (today : Int) (t : String) :
    Option Timestamp × String :=
  match p.calendar t with
  | .raises => (none, "error")
  | .ok cal =>
    match calStep cal with
    | some r => r
    | none => scheduleOutcome p today t

/-- One row of the earnings table built by `make_earnings_table`. The
`next_earnings` cell keeps the resolved datetime's timezone awareness. -/
structure ERecord where
  ticker : String
  next_earnings : Option Timestamp
  status : String
  days_to : Option Int
deriving DecidableEq, Repr

/-- The record appended for one ticker (lines 93-99): `days_to` is the
difference in calendar days between the resolved date and today, `None`
when no date resolved. -/
def mkERecord (p : Provider) (today : Int) (t : String) : ERecord :=
  let r := fetch_next_earnings_date p today t
  { ticker := t
    next_earnings := r.1
    status := r.2
    days_to := r.1.map (fun d => d.instant - today) }

/-- Does the record carry a resolved date? -/
def hasDate (r : ERecord) : Bool := r.next_earnings.isSome

/-- Sort key for records that carry a date. -/
def dateKey (r : ERecord) : Int :=
  match r.next_earnings with
  | some ts => ts.instant
  | none => 0

/-- Does the record carry a timezone-AWARE resolved date? -/
def datedAware (r : ERecord) : Bool :=
  match r.next_earnings with
  | some ts => ts.tz.isSome
  | none => false

/-- Does the record carry a timezone-NAIVE resolved date? -/
def datedNaive (r : ERecord) : Bool :=
  match r.next_earnings with
  | some ts => !ts.tz.isSome
  | none => false

/-- Does the `next_earnings` column mix naive and aware datetimes? Sorting
such an object column makes Python compare a naive with an aware datetime,
which raises TypeError. Null dates never take part in comparisons. -/
def mixedAwareness (rs : List ERecord) : Bool :=
  rs.any datedAware && rs.any datedNaive

/-- Comparison used to sort the earnings table by `next_earnings`. -/
def erle (a b : ERecord) : Prop := dateKey a ≤ dateKey b

instance : DecidableRel erle := fun a b => Int.decLe (dateKey a) (dateKey b)

instance : IsTotal ERecord erle := ⟨fun a b => Int.le_total (dateKey a) (dateKey b)⟩

instance : IsTrans ERecord erle := ⟨fun _ _ _ h h' => le_trans h h'⟩

/-- Order of the rows a successful sort produces: the rows with a date,
ascending by date (aware dates compare by UTC instant, naive ones by wall
value — awareness is uniform whenever this is reached), followed by the
rows without a date in their original order (pandas appends the NaN
positions in positional order). Ties among equal dates are kept stable
here; pandas' default quicksort leaves their order unspecified, and no
claim depends on it. -/
def sortByNextEarnings (rs : List ERecord) : List ERecord :=
  List.insertionSort erle (rs.filter hasDate) ++ rs.filter (fun r => !hasDate r)

/-- The call `pd.DataFrame(records).sort_values(by=["next_earnings"],
ascending=True, na_position="last")` at line 100. On `records == []` the
frame has no columns at all and `sort_values` raises
`KeyError: 'next_earnings'`. On a `next_earnings` column mixing naive and
aware datetimes the comparisons raise
`TypeError: can't compare offset-naive and offset-aware datetimes`.
Otherwise the rows come back sorted. -/
def sort_values_next_earnings (records : List ERecord) : Except String (List ERecord) :=
  if records.isEmpty then .error "KeyError: next_earnings"
  else if mixedAwareness records then
    .error "TypeError: cannot compare offset-naive and offset-aware datetimes"
  else .ok (sortByNextEarnings records)

/-- The Earnings Table Builder `make_earnings_table` of `src/app.py`, lines
81-101: resolve every ticker in order, then sort by `next_earnings`. -/
def make_earnings_table (p : Provider) (today : Int) (tickers : List String) :
    Except String (List ERecord) :=
  sort_values_next_earnings (tickers.map (mkERecord p today))

instance {ε α : Type} [DecidableEq ε] [DecidableEq α] : DecidableEq (Except ε α) := fun a b =>
  match a, b with
  | .ok x, .ok y =>
    if h : x = y then .isTrue (by rw [h]) else .isFalse (fun hh => by cases hh; exact h rfl)
  | .error x, .error y =>
    if h : x = y then .isTrue (by rw [h]) else .isFalse (fun hh => by cases hh; exact h rfl)
  | .ok _, .error _ => .isFalse (fun hh => by cases hh)
  | .error _, .ok _ => .isFalse (fun hh => by cases hh)

/-- Mapping a function that fixes every member of a list is the identity. -/
theorem list_map_self {α : Type} {f : α → α} {l : List α} (h : ∀ a ∈ l, f a = a) :
    l.map f = l := by
  induction l with
  | nil => rfl
  | cons a l ih =>
    simp only [List.map_cons, h a (List.mem_cons_self a l)]
    rw [ih (fun b hb => h b (List.mem_cons_of_mem a hb))]

/-- Writing back the very value a row already holds leaves the row unchanged. -/
theorem setCell_eq_self {r : Row} {c : String} {v : Value} (hnull : v ≠ .vNull)
    (hget : getCell r c = v) : setCell r c v = r := by
  induction r with
  | nil => exact absurd hget.symm hnull
  | cons p rest ih =>
    obtain ⟨k, w⟩ := p
    by_cases h : (k == c) = true
    · have hk : k = c := eq_of_beq h
      have hw : w = v := by
        simpa [getCell, List.find?, h] using hget
      simp [setCell, h, hk, hw]
    · have hb : (k == c) = false := by simpa using h
      have hget' : getCell rest c = v := by
        simpa [getCell, List.find?, hb] using hget
      simp [setCell, hb, ih hget']

/-- A fallible row transform that succeeds identically on every row
traverses to the unchanged row list. -/
theorem traverseRows_ok {f : Row → Except PyError Row} {rows : List Row}
    (h : ∀ r ∈ rows, f r = .ok r) : traverseRows f rows = .ok rows := by
  induction rows with
  | nil => rfl
  | cons r rs ih =>
    simp only [traverseRows, h r (List.mem_cons_self r rs),
      ih (fun r' hr' => h r' (List.mem_cons_of_mem r hr'))]

/-- C7: for every input record set missing one or more of the required
columns {date, ticker, notional, type, source}, the Position Normalizer
fails with a schema error naming exactly the missing required columns
(those `c` in `required` with `c` not among the input's columns, in the
order `required` lists them). -/
theorem c7_missing_columns_error (dparse : String → Option Int) (df : DataFrame)
    (h : required.filter (fun c => !(df.cols.contains c)) ≠ []) :
    parse_positions_csv dparse df =
      .error (.valueError (required.filter (fun c => !(df.cols.contains c)))) := by
  have hne : (required.filter (fun c => !(df.cols.contains c))).isEmpty = false :=
    List.isEmpty_eq_false.mpr h
  simp only [parse_positions_csv, hne, Bool.false_eq_true, if_false]

/-- A record set with every required column except `ticker`. -/
def c7df : DataFrame :=
  { cols := ["date", "notional", "type", "source"]
    rows := [[("date", .vStr "100"), ("notional", .vNum 7),
              ("type", .vStr "t"), ("source", .vStr "s")]] }

/-- C7 witness: an input missing only `ticker` raises an error naming
exactly `["ticker"]`. -/
theorem c7_missing_columns_error_witness :
    required.filter (fun c => !(c7df.cols.contains c)) ≠ [] ∧
    parse_positions_csv (fun _ => none) c7df = .error (.valueError ["ticker"]) :=
  ⟨by decide, (c7_missing_columns_error (fun _ => none) c7df (by decide)).trans (by rfl)⟩

/-- A concrete permissive date parser used for concrete evaluations: it
accepts exactly the `dateToStr` renderings (optionally signed digit text). -/
def dparse0 (s : String) : Option Int :=
  match s.data with
  | '-' :: cs => (parseNatDigits cs).map (fun n => -(n : Int))
  | cs => (parseNatDigits cs).map (fun n => (n : Int))

/-- A well-formed positions row whose date text parses. -/
def c2rowGood : Row :=
  [("date", .vStr "100"), ("ticker", .vStr "aapl"), ("notional", .vStr "5"),
   ("type", .vStr "t"), ("source", .vStr "s")]

/-- A positions row whose date text does not parse. -/
def c2rowBad : Row :=
  [("date", .vStr "garbage"), ("ticker", .vStr "msft"), ("notional", .vStr "6"),
   ("type", .vStr "t"), ("source", .vStr "s")]

/-- Two-row input, all required columns present, second row's date unparseable. -/
def c2df : DataFrame := { cols := required, rows := [c2rowGood, c2rowBad] }

/-- The same input with the bad row removed. -/
def c2dfGood : DataFrame := { cols := required, rows := [c2rowGood] }

/-- C2: a row whose date value fails to parse is NOT silently excluded: the
`Series.apply` of `dtparser.parse` propagates the parser's exception, so the
whole normalization call raises. The same input without the bad row
normalizes fine, which is what the claim expected to survive. -/
theorem c2_unparseable_date_raises :
    parse_positions_csv dparse0 c2df = .error .parserError ∧
    parse_positions_csv dparse0 c2dfGood =
      .ok { cols := required ++ ["notes"]
            rows := [[("date", .vDate 100), ("ticker", .vStr "AAPL"),
                      ("notional", .vNum (mkRat 5 1)), ("type", .vStr "t"),
                      ("source", .vStr "s"), ("notes", .vStr "")]] } := by
  constructor
  · rfl
  · rfl

/-- Is the cell a parsed date? -/
def isDateCell : Value → Bool
  | .vDate _ => true
  | _ => false

/-- Does the external date parser give back the date a date cell holds when
fed that cell's rendered text? (True of `dateutil` on ISO renderings.) -/
def dateRoundtrip (dparse : String → Option Int) : Value → Bool
  | .vDate d => dparse (dateToStr d) == some d
  | _ => true

/-- A row in normalized form: parsed date, uppercase trimmed string ticker,
numeric notional, string type and source. -/
def normalizedRow (r : Row) : Bool :=
  isDateCell (getCell r "date")
    && (match getCell r "ticker" with
        | .vStr s => (pyUpper s == s) && (pyStrip s == s)
        | _ => false)
    && (match getCell r "notional" with | .vNum _ => true | _ => false)
    && (match getCell r "type" with | .vStr _ => true | _ => false)
    && (match getCell r "source" with | .vStr _ => true | _ => false)

/-- A record set in normalized form: all required columns present, the
`notes` column present (every normalizer output has it), every row
normalized. -/
def isNormalizedDF (df : DataFrame) : Bool :=
  required.all (fun c => df.cols.contains c) && df.cols.contains "notes"
    && df.rows.all normalizedRow

/-- A column assignment whose per-cell function fixes every (non-null) cell
of that column is the identity on the DataFrame. -/
theorem mapCol_id {df : DataFrame} {c : String} {f : Value → Value}
    (h : ∀ r ∈ df.rows, f (getCell r c) = getCell r c)
    (hnull : ∀ r ∈ df.rows, getCell r c ≠ .vNull) : mapCol df c f = df := by
  cases df with
  | mk cols rows =>
    simp only [mapCol, DataFrame.mk.injEq, true_and]
    apply list_map_self
    intro r hr
    rw [h r hr]
    exact setCell_eq_self (hnull r hr) rfl

/-- C9: the Position Normalizer is idempotent on record sets already in
normalized form (given that the external date parser re-parses rendered
dates back to themselves, which is the `dateutil`-on-ISO behavior): the
record set comes back unchanged. -/
theorem c9_normalize_idempotent (dparse : String → Option Int) (df : DataFrame)
    (hrt : df.rows.all (fun r => dateRoundtrip dparse (getCell r "date")) = true)
    (hn : isNormalizedDF df = true) :
    parse_positions_csv dparse df = .ok df := by
  simp only [isNormalizedDF, Bool.and_eq_true] at hn
  obtain ⟨⟨hreq, hnotes⟩, hrows⟩ := hn
  rw [List.all_eq_true] at hrows hreq
  rw [List.all_eq_true] at hrt
  have hfacts : ∀ r ∈ df.rows,
      (∃ d : Int, getCell r "date" = .vDate d ∧ dparse (dateToStr d) = some d) ∧
      (∃ s, getCell r "ticker" = .vStr s ∧ pyUpper s = s ∧ pyStrip s = s) ∧
      (∃ q, getCell r "notional" = .vNum q) ∧
      (∃ s, getCell r "type" = .vStr s) ∧
      (∃ s, getCell r "source" = .vStr s) := by
    intro r hr
    have h1 : normalizedRow r = true := hrows r hr
    have h2 : dateRoundtrip dparse (getCell r "date") = true := hrt r hr
    simp only [normalizedRow, Bool.and_eq_true] at h1
    obtain ⟨⟨⟨⟨hd, htk⟩, hno⟩, hty⟩, hso⟩ := h1
    refine ⟨?_, ?_, ?_, ?_, ?_⟩
    · cases hget : getCell r "date" with
      | vDate d =>
        rw [hget] at h2
        simp only [dateRoundtrip, beq_iff_eq] at h2
        exact ⟨d, rfl, h2⟩
      | vStr s => rw [hget] at hd; simp [isDateCell] at hd
      | vNum q => rw [hget] at hd; simp [isDateCell] at hd
      | vNull => rw [hget] at hd; simp [isDateCell] at hd
    · cases hget : getCell r "ticker" with
      | vStr s =>
        rw [hget] at htk
        simp only [Bool.and_eq_true, beq_iff_eq] at htk
        exact ⟨s, rfl, htk.1, htk.2⟩
      | vDate d => rw [hget] at htk; simp at htk
      | vNum q => rw [hget] at htk; simp at htk
      | vNull => rw [hget] at htk; simp at htk
    · cases hget : getCell r "notional" with
      | vNum q => exact ⟨q, rfl⟩
      | vStr s => rw [hget] at hno; simp at hno
      | vDate d => rw [hget] at hno; simp at hno
      | vNull => rw [hget] at hno; simp at hno
    · cases hget : getCell r "type" with
      | vStr s => exact ⟨s, rfl⟩
      | vNum q => rw [hget] at hty; simp at hty
      | vDate d => rw [hget] at hty; simp at hty
      | vNull => rw [hget] at hty; simp at hty
    · cases hget : getCell r "source" with
      | vStr s => exact ⟨s, rfl⟩
      | vNum q => rw [hget] at hso; simp at hso
      | vDate d => rw [hget] at hso; simp at hso
      | vNull => rw [hget] at hso; simp at hso
  have hmiss : required.filter (fun c => !(df.cols.contains c)) = [] := by
    rw [List.filter_eq_nil_iff]
    intro c hc
    rw [hreq c hc]
    simp
  have hdateStep : dateStep dparse df = .ok df := by
    have ht : traverseRows (dateApply dparse) df.rows = .ok df.rows := by
      apply traverseRows_ok
      intro r hr
      obtain ⟨⟨d, hget, hp⟩, _, _, _, _⟩ := hfacts r hr
      simp only [dateApply, hget, pyStr, hp]
      rw [setCell_eq_self (by simp) hget]
    simp only [dateStep, ht]
  have htick : mapCol df "ticker" stripUpper = df := by
    apply mapCol_id
    · intro r hr
      obtain ⟨_, ⟨s, hget, hu, hs⟩, _, _, _⟩ := hfacts r hr
      rw [hget]
      simp only [stripUpper, hu, hs]
    · intro r hr
      obtain ⟨_, ⟨s, hget, _, _⟩, _, _, _⟩ := hfacts r hr
      rw [hget]
      simp
  have hnot : mapCol df "notional" toNumeric = df := by
    apply mapCol_id
    · intro r hr
      obtain ⟨_, _, ⟨q, hget⟩, _, _⟩ := hfacts r hr
      rw [hget]
      rfl
    · intro r hr
      obtain ⟨_, _, ⟨q, hget⟩, _, _⟩ := hfacts r hr
      rw [hget]
      simp
  have hty : mapCol df "type" astypeStr = df := by
    apply mapCol_id
    · intro r hr
      obtain ⟨_, _, _, ⟨s, hget⟩, _⟩ := hfacts r hr
      rw [hget]
      rfl
    · intro r hr
      obtain ⟨_, _, _, ⟨s, hget⟩, _⟩ := hfacts r hr
      rw [hget]
      simp
  have hso : mapCol df "source" astypeStr = df := by
    apply mapCol_id
    · intro r hr
      obtain ⟨_, _, _, _, ⟨s, hget⟩⟩ := hfacts r hr
      rw [hget]
      rfl
    · intro r hr
      obtain ⟨_, _, _, _, ⟨s, hget⟩⟩ := hfacts r hr
      rw [hget]
      simp
  have hnotesStep : notesStep df = df := by
    simp only [notesStep]
    rw [if_pos hnotes]
  have hdrop : dropnaStep df = df := by
    cases df with
    | mk cols rows =>
      simp only [dropnaStep, DataFrame.mk.injEq, true_and]
      rw [List.filter_eq_self]
      intro r hr
      obtain ⟨⟨d, hg1, _⟩, ⟨s, hg2, _, _⟩, ⟨q, hg3⟩, _, _⟩ := hfacts r hr
      simp [rowKept, hg1, hg2, hg3]
  simp only [parse_positions_csv, hmiss, List.isEmpty_nil, if_true, hdateStep]
  rw [htick, hnot, hty, hso, hnotesStep, hdrop]

/-- A concrete record set in normalized form. -/
def c9df : DataFrame :=
  { cols := required ++ ["notes"]
    rows := [[("date", .vDate 100), ("ticker", .vStr "AAPL"),
              ("notional", .vNum (mkRat 5 1)), ("type", .vStr "t"),
              ("source", .vStr "s"), ("notes", .vStr "")]] }

/-- C9 witness: normalizing the concrete already-normalized record set gives
it back unchanged. -/
theorem c9_normalize_idempotent_witness :
    (c9df.rows.all (fun r => dateRoundtrip dparse0 (getCell r "date")) = true) ∧
    isNormalizedDF c9df = true ∧
    parse_positions_csv dparse0 c9df = .ok c9df :=
  ⟨by decide, by decide, c9_normalize_idempotent dparse0 c9df (by decide) (by decide)⟩

/-- A Python heap of DataFrame objects; a reference is an index into it. -/
abbrev Heap := List DataFrame

/-- Dereference (a dangling reference reads an empty frame). -/
def readH (h : Heap) (r : Nat) : DataFrame := h.getD r { cols := [], rows := [] }

/-- Mutate the object a reference points to. -/
def writeH (h : Heap) (r : Nat) (df : DataFrame) : Heap := h.set r df

/-- Heap-level rendering of `parse_positions_csv`, mirroring its statement
sequence: the schema check reads the argument; `out = df.copy()` allocates a
fresh object with the same value; every later column assignment mutates only
the `out` object; the result is a reference to `out`. -/
def parse_positions_csv_impl (dparse : String → Option Int) (h : Heap) (r : Nat) :
    Heap × Except PyError Nat :=
  let df := readH h r
  let missing := required.filter (fun c => !(df.cols.contains c))
  if missing.isEmpty then
    let out := h.length
    let h1 := h ++ [df]
    match dateStep dparse (readH h1 out) with
    | .error e => (h1, .error e)
    | .ok d1 =>
      let h2 := writeH h1 out d1
      let h3 := writeH h2 out (mapCol (readH h2 out) "ticker" stripUpper)
      let h4 := writeH h3 out (mapCol (readH h3 out) "notional" toNumeric)
      let h5 := writeH h4 out (mapCol (readH h4 out) "type" astypeStr)
      let h6 := writeH h5 out (mapCol (readH h5 out) "source" astypeStr)
      let h7 := writeH h6 out (notesStep (readH h6 out))
      let h8 := writeH h7 out (dropnaStep (readH h7 out))
      (h8, .ok out)
  else (h, .error (.valueError missing))

/-- Reading an index below the original length ignores an appended object. -/
theorem readH_append {h : Heap} {r : Nat} (hr : r < h.length) (df : DataFrame) :
    readH (h ++ [df]) r = readH h r := by
  simp only [readH, List.getD, List.get?_eq_getElem?, List.getElem?_append_left hr]

/-- Reading one object ignores a write to a different one. -/
theorem readH_writeH_ne {h : Heap} {r i : Nat} (hne : i ≠ r) (df : DataFrame) :
    readH (writeH h i df) r = readH h r := by
  simp only [readH, writeH, List.getD, List.get?_eq_getElem?, List.getElem?_set_ne hne]

/-- C10: whatever the Position Normalizer returns — the normalized copy or a
schema/date-parse error — the caller's record set object is untouched. -/
theorem c10_input_unchanged (dparse : String → Option Int) (h : Heap) (r : Nat)
    (hr : r < h.length) :
    readH (parse_positions_csv_impl dparse h r).1 r = readH h r := by
  have hne : h.length ≠ r := Nat.ne_of_gt hr
  unfold parse_positions_csv_impl
  cases hmiss : (required.filter (fun c => !((readH h r).cols.contains c))).isEmpty with
  | false => simp only [hmiss, Bool.false_eq_true, if_false]
  | true =>
    simp only [hmiss, if_true]
    cases hds : dateStep dparse (readH (h ++ [readH h r]) h.length) with
    | error e => exact readH_append hr _
    | ok d1 =>
      simp only []
      rw [readH_writeH_ne hne, readH_writeH_ne hne, readH_writeH_ne hne,
        readH_writeH_ne hne, readH_writeH_ne hne, readH_writeH_ne hne,
        readH_writeH_ne hne]
      exact readH_append hr _

/-- Reading right after writing the same object gives the written value. -/
theorem readH_writeH_self {h : Heap} {i : Nat} (hi : i < h.length) (df : DataFrame) :
    readH (writeH h i df) i = df := by
  simp only [readH, writeH, List.getD, List.get?_eq_getElem?,
    List.getElem?_set_self hi, Option.getD_some]

/-- Reading the freshly appended object gives it back. -/
theorem readH_concat_self (h : Heap) (df : DataFrame) : readH (h ++ [df]) h.length = df := by
  simp only [readH, List.getD, List.get?_eq_getElem?, List.getElem?_concat_length,
    Option.getD_some]

/-- The heap-level normalizer computes exactly what the pure normalizer
computes: same error outcomes, and on success the returned reference holds
the pure result. -/
theorem impl_agrees_pure (dparse : String → Option Int) (h : Heap) (r : Nat) :
    (parse_positions_csv_impl dparse h r).2 =
      (parse_positions_csv dparse (readH h r)).map (fun _ => h.length) ∧
    (∀ out, parse_positions_csv dparse (readH h r) = .ok out →
      readH (parse_positions_csv_impl dparse h r).1 h.length = out) := by
  unfold parse_positions_csv_impl parse_positions_csv
  have hread : readH (h ++ [readH h r]) h.length = readH h r := readH_concat_self h _
  cases hmiss : (required.filter (fun c => !((readH h r).cols.contains c))).isEmpty with
  | false =>
    simp only [hmiss, Bool.false_eq_true, if_false]
    exact ⟨rfl, fun out hout => by simp at hout⟩
  | true =>
    simp only [hmiss, if_true, hread]
    cases hds : dateStep dparse (readH h r) with
    | error e =>
      simp only []
      exact ⟨rfl, fun out hout => by simp at hout⟩
    | ok d1 =>
      simp only []
      have l1 : h.length < (h ++ [readH h r]).length := by simp
      rw [readH_writeH_self l1 d1]
      have l2 : h.length < (writeH (h ++ [readH h r]) h.length d1).length := by
        simp [writeH]
      rw [readH_writeH_self l2 (mapCol d1 "ticker" stripUpper)]
      have l3 : h.length <
          (writeH (writeH (h ++ [readH h r]) h.length d1) h.length
            (mapCol d1 "ticker" stripUpper)).length := by
        simp [writeH]
      rw [readH_writeH_self l3 (mapCol (mapCol d1 "ticker" stripUpper) "notional" toNumeric)]
      have l4 : h.length <
          (writeH (writeH (writeH (h ++ [readH h r]) h.length d1) h.length
            (mapCol d1 "ticker" stripUpper)) h.length
            (mapCol (mapCol d1 "ticker" stripUpper) "notional" toNumeric)).length := by
        simp [writeH]
      rw [readH_writeH_self l4 _]
      have l5 : h.length <
          (writeH (writeH (writeH (writeH (h ++ [readH h r]) h.length d1) h.length
            (mapCol d1 "ticker" stripUpper)) h.length
            (mapCol (mapCol d1 "ticker" stripUpper) "notional" toNumeric)) h.length
            (mapCol (mapCol (mapCol d1 "ticker" stripUpper) "notional" toNumeric)
              "type" astypeStr)).length := by
        simp [writeH]
      rw [readH_writeH_self l5 _]
      have l6 : h.length <
          (writeH (writeH (writeH (writeH (writeH (h ++ [readH h r]) h.length d1) h.length
            (mapCol d1 "ticker" stripUpper)) h.length
            (mapCol (mapCol d1 "ticker" stripUpper) "notional" toNumeric)) h.length
            (mapCol (mapCol (mapCol d1 "ticker" stripUpper) "notional" toNumeric)
              "type" astypeStr)) h.length
            (mapCol (mapCol (mapCol (mapCol d1 "ticker" stripUpper) "notional" toNumeric)
              "type" astypeStr) "source" astypeStr)).length := by
        simp [writeH]
      rw [readH_writeH_self l6 _]
      have l7 : h.length <
          (writeH (writeH (writeH (writeH (writeH (writeH (h ++ [readH h r]) h.length d1)
            h.length (mapCol d1 "ticker" stripUpper)) h.length
            (mapCol (mapCol d1 "ticker" stripUpper) "notional" toNumeric)) h.length
            (mapCol (mapCol (mapCol d1 "ticker" stripUpper) "notional" toNumeric)
              "type" astypeStr)) h.length
            (mapCol (mapCol (mapCol (mapCol d1 "ticker" stripUpper) "notional" toNumeric)
              "type" astypeStr) "source" astypeStr)) h.length
            (notesStep (mapCol (mapCol (mapCol (mapCol d1 "ticker" stripUpper)
              "notional" toNumeric) "type" astypeStr) "source" astypeStr))).length := by
        simp [writeH]
      rw [readH_writeH_self l7 _]
      refine ⟨rfl, fun out hout => ?_⟩
      exact (by simpa using hout :
        dropnaStep (notesStep (mapCol (mapCol (mapCol (mapCol d1 "ticker"
          stripUpper) "notional" toNumeric) "type" astypeStr) "source" astypeStr)) = out)

/-- A one-row well-formed positions record set for the C10 witness. -/
def c10df : DataFrame :=
  { cols := required
    rows := [[("date", .vStr "100"), ("ticker", .vStr "xyz"), ("notional", .vStr "9"),
              ("type", .vStr "t"), ("source", .vStr "s")]] }

/-- C10 witness: running the normalizer on a one-object heap leaves the
caller's object bit-for-bit unchanged. -/
theorem c10_input_unchanged_witness :
    (0 : Nat) < ([c10df] : Heap).length ∧
    readH (parse_positions_csv_impl dparse0 [c10df] 0).1 0 = c10df := by
  refine ⟨by decide, ?_⟩
  have := c10_input_unchanged dparse0 [c10df] 0 (by decide)
  rw [this]
  rfl

/-- The sorted earnings table is a permutation of the resolved records. -/
theorem sortByNextEarnings_perm (rs : List ERecord) : (sortByNextEarnings rs).Perm rs := by
  unfold sortByNextEarnings
  exact ((List.perm_insertionSort erle _).append (List.Perm.refl _)).trans
    (List.filter_append_perm hasDate rs)

/-- A provider returning no data at all for any ticker. -/
def emptyProvider : Provider :=
  { calendar := fun _ => .ok .notDF, earningsDates := fun _ => .ok .notDF }

/-- A provider whose every call raises. -/
def raisingProvider : Provider :=
  { calendar := fun _ => .raises, earningsDates := fun _ => .raises }

/-- C3: on the empty ticker list the Earnings Table Builder does NOT return
an empty result: `records == []` makes `pd.DataFrame(records)` a frame with
no columns, so `sort_values(by=["next_earnings"])` raises `KeyError`. -/
theorem c3_empty_tickers_raises :
    make_earnings_table emptyProvider 0 [] = .error "KeyError: next_earnings" := rfl

/-- Provider resolving ticker "N" through the calendar branch (a NAIVE
datetime, line 31) and ticker "W" through a tz-aware schedule (an AWARE
datetime, line 44). -/
def mixedTzProvider : Provider :=
  { calendar := fun t =>
      if t == "N" then .ok (.df [("Earnings Date", some 10)]) else .ok .notDF
    earningsDates := fun t =>
      if t == "W" then
        .ok (.df { tz := some 0, hasEP := false, rows := [(20, .vNull)] })
      else .ok .notDF }

/-- C8 counterexample: the claim fails at the empty ticker list (the sort
raises KeyError instead of returning an empty table), and also at the
non-empty batch ["N", "W"] whose resolved dates mix a naive calendar-branch
datetime with a tz-aware schedule-branch datetime (the sort's comparisons
raise TypeError) — in neither case does an output of the input's length
exist. -/
theorem c8_counterexample :
    (¬ ∃ out, make_earnings_table raisingProvider 0 [] = .ok out ∧ out.length = 0) ∧
    make_earnings_table mixedTzProvider 0 ["N", "W"] =
      .error "TypeError: cannot compare offset-naive and offset-aware datetimes" ∧
    (¬ ∃ out, make_earnings_table mixedTzProvider 0 ["N", "W"] = .ok out ∧
      out.length = 2) := by
  refine ⟨?_, rfl, ?_⟩
  · rintro ⟨out, hout, -⟩
    have h : make_earnings_table raisingProvider 0 [] =
        .error "KeyError: next_earnings" := rfl
    rw [h] at hout
    exact Except.noConfusion hout
  · rintro ⟨out, hout, -⟩
    have h : make_earnings_table mixedTzProvider 0 ["N", "W"] =
        .error "TypeError: cannot compare offset-naive and offset-aware datetimes" := rfl
    rw [h] at hout
    exact Except.noConfusion hout

/-- C8 (amended): for every non-empty ticker list whose resolved dates do
not mix timezone-naive and timezone-aware datetimes (a mix makes the sort
raise TypeError — see the counterexample), the builder returns one record
per input ticker: the output is a permutation of the per-ticker resolution
results, its length is the input length, and its tickers are exactly the
input tickers, duplicates included. -/
theorem c8_one_record_per_ticker (p : Provider) (today : Int) (tickers : List String)
    (h : tickers ≠ [])
    (hmix : mixedAwareness (tickers.map (mkERecord p today)) = false) :
    ∃ out, make_earnings_table p today tickers = .ok out ∧
      out.length = tickers.length ∧
      out.Perm (tickers.map (mkERecord p today)) ∧
      (out.map ERecord.ticker).Perm tickers := by
  have hne : (tickers.map (mkERecord p today)).isEmpty = false := by
    rw [List.isEmpty_eq_false]
    simpa using h
  refine ⟨sortByNextEarnings (tickers.map (mkERecord p today)), ?_, ?_, ?_, ?_⟩
  · simp only [make_earnings_table, sort_values_next_earnings, hne, hmix,
      Bool.false_eq_true, if_false]
  · rw [(sortByNextEarnings_perm _).length_eq, List.length_map]
  · exact sortByNextEarnings_perm _
  · refine ((sortByNextEarnings_perm _).map ERecord.ticker).trans ?_
    have hmap : (tickers.map (mkERecord p today)).map ERecord.ticker = tickers := by
      rw [List.map_map]
      have hco : ERecord.ticker ∘ mkERecord p today = id := by
        funext t
        rfl
      rw [hco, List.map_id]
    rw [hmap]

/-- C8 witness: a duplicated two-ticker list yields exactly two records. -/
theorem c8_one_record_per_ticker_witness :
    ∃ out, make_earnings_table emptyProvider 0 ["A", "A"] = .ok out ∧
      out.length = 2 ∧ out.Perm (["A", "A"].map (mkERecord emptyProvider 0)) ∧
      (out.map ERecord.ticker).Perm ["A", "A"] := by
  have h := c8_one_record_per_ticker emptyProvider 0 ["A", "A"] (by decide) (by decide)
  simpa using h

/-- C6: an exception from either provider call is absorbed into
`(None, "error")` and never propagated. A failing ticker's record carries a
null date — null dates never take part in the sort's comparisons — so a
failure for one ticker cannot abort the batch: adding a ticker whose
provider call raises to any batch that builds leaves the batch building,
one extra `(None, "error")` record for the failing ticker. -/
theorem c6_provider_errors_absorbed (p : Provider) (today : Int) (t : String) :
    (p.calendar t = .raises → fetch_next_earnings_date p today t = (none, "error")) ∧
    (∀ cal, p.calendar t = .ok cal → calStep cal = none →
      p.earningsDates t = .raises → fetch_next_earnings_date p today t = (none, "error")) ∧
    (∀ tickers out, p.calendar t = .raises →
      make_earnings_table p today tickers = .ok out →
      ∃ out', make_earnings_table p today (tickers ++ [t]) = .ok out' ∧
        out'.length = out.length + 1 ∧
        ({ ticker := t, next_earnings := none, status := "error",
           days_to := none } : ERecord) ∈ out') := by
  refine ⟨?_, ?_, ?_⟩
  · intro h
    simp [fetch_next_earnings_date, h]
  · intro cal hcal hstep hed
    simp [fetch_next_earnings_date, hcal, hstep, scheduleOutcome, hed]
  · intro tickers out hraise hok
    have herr : mkERecord p today t =
        { ticker := t, next_earnings := none, status := "error", days_to := none } := by
      simp [mkERecord, fetch_next_earnings_date, hraise]
    have hsplit : mixedAwareness (tickers.map (mkERecord p today)) = false ∧
        out = sortByNextEarnings (tickers.map (mkERecord p today)) := by
      unfold make_earnings_table sort_values_next_earnings at hok
      by_cases hc : (tickers.map (mkERecord p today)).isEmpty = true
      · rw [if_pos hc] at hok
        exact Except.noConfusion hok
      · rw [if_neg hc] at hok
        by_cases hm : mixedAwareness (tickers.map (mkERecord p today)) = true
        · rw [if_pos hm] at hok
          exact Except.noConfusion hok
        · rw [if_neg hm] at hok
          injection hok with h'
          exact ⟨Bool.not_eq_true _ ▸ hm, h'.symm⟩
    obtain ⟨hm', hout⟩ := hsplit
    have hmap : (tickers ++ [t]).map (mkERecord p today) =
        tickers.map (mkERecord p today) ++ [mkERecord p today t] :=
      List.map_append _ _ _
    refine ⟨sortByNextEarnings ((tickers ++ [t]).map (mkERecord p today)), ?_, ?_, ?_⟩
    · have h1 : ((tickers ++ [t]).map (mkERecord p today)).isEmpty = false := by
        simp
      have h2 : mixedAwareness ((tickers ++ [t]).map (mkERecord p today)) = false := by
        rw [hmap, herr]
        simp only [mixedAwareness, List.any_append] at hm' ⊢
        simpa [datedAware, datedNaive] using hm'
      simp only [make_earnings_table, sort_values_next_earnings, h1, h2,
        Bool.false_eq_true, if_false]
    · rw [hout, (sortByNextEarnings_perm _).length_eq,
        (sortByNextEarnings_perm _).length_eq, hmap, List.length_append]
      rfl
    · have hmem : mkERecord p today t ∈ (tickers ++ [t]).map (mkERecord p today) := by
        rw [hmap]
        exact List.mem_append_right _ (List.mem_singleton_self _)
      rw [← herr]
      exact ((sortByNextEarnings_perm _).mem_iff).mpr hmem

/-- The one-row table the all-raising provider builds for ["AAPL"]. -/
def w6out : List ERecord :=
  [{ ticker := "AAPL", next_earnings := none, status := "error", days_to := none }]

/-- C6 witness: the raising provider yields `(None, "error")` for a ticker,
and adding that failing ticker to a batch that builds leaves the batch
building with its `(None, "error")` record appended. -/
theorem c6_provider_errors_absorbed_witness :
    fetch_next_earnings_date raisingProvider 0 "MSFT" = (none, "error") ∧
    ∃ out', make_earnings_table raisingProvider 0 (["AAPL"] ++ ["MSFT"]) = .ok out' ∧
      out'.length = w6out.length + 1 ∧
      ({ ticker := "MSFT", next_earnings := none, status := "error",
         days_to := none } : ERecord) ∈ out' := by
  have h := c6_provider_errors_absorbed raisingProvider 0 "MSFT"
  exact ⟨h.1 rfl, h.2.2 ["AAPL"] w6out rfl (by decide)⟩

/-- Provider whose calendar carries a concrete (non-null) "Earnings Date". -/
def calSomeProvider : Provider :=
  { calendar := fun _ => .ok (.df [("Earnings Date", some 7)])
    earningsDates := fun _ => .ok .notDF }

/-- Provider whose calendar has the "Earnings Date" field present but null,
while its schedule view holds a usable future date. -/
def nullCalProvider : Provider :=
  { calendar := fun _ => .ok (.df [("Earnings Date", none)])
    earningsDates := fun _ =>
      .ok (.df { tz := none, hasEP := false, rows := [(5, .vNull)] }) }

/-- C1 counterexample: with "Earnings Date" present but null the resolver
returns `(None, "unknown")` immediately — it does not consult the schedule
view, even though that view would have produced `(5, "estimated")`. -/
theorem c1_counterexample_null_calendar :
    fetch_next_earnings_date nullCalProvider 0 "AAPL" = (none, "unknown") ∧
    scheduleOutcome nullCalProvider 0 "AAPL" =
      (some { instant := 5, tz := none }, "estimated") :=
  ⟨rfl, rfl⟩

/-- C1 (amended): the resolver tries the calendar view first; a non-null
"Earnings Date" returns that date with status "estimated"; a present but
null "Earnings Date" returns `(None, "unknown")` WITHOUT querying the
schedule view; only when the calendar result is not a DataFrame, is empty,
or lacks the field does the resolver query the schedule view. -/
theorem c1_calendar_then_schedule (p : Provider) (today : Int) (t : String) :
    (∀ entries k d, p.calendar t = .ok (.df entries) → entries.isEmpty = false →
      entries.find? (fun q => q.1 == "Earnings Date") = some (k, some d) →
      fetch_next_earnings_date p today t =
        (some { instant := d, tz := none }, "estimated")) ∧
    (∀ entries k, p.calendar t = .ok (.df entries) → entries.isEmpty = false →
      entries.find? (fun q => q.1 == "Earnings Date") = some (k, none) →
      fetch_next_earnings_date p today t = (none, "unknown")) ∧
    (∀ cal, p.calendar t = .ok cal → calStep cal = none →
      fetch_next_earnings_date p today t = scheduleOutcome p today t) := by
  refine ⟨?_, ?_, ?_⟩
  · intro entries k d hcal hne hfind
    simp [fetch_next_earnings_date, hcal, calStep, hne, hfind]
  · intro entries k hcal hne hfind
    simp [fetch_next_earnings_date, hcal, calStep, hne, hfind]
  · intro cal hcal hstep
    simp [fetch_next_earnings_date, hcal, hstep]

/-- C1 witness: the three behaviors at concrete providers. -/
theorem c1_calendar_then_schedule_witness :
    fetch_next_earnings_date calSomeProvider 0 "A" =
      (some { instant := 7, tz := none }, "estimated") ∧
    fetch_next_earnings_date nullCalProvider 0 "A" = (none, "unknown") ∧
    fetch_next_earnings_date emptyProvider 0 "A" = scheduleOutcome emptyProvider 0 "A" :=
  ⟨(c1_calendar_then_schedule calSomeProvider 0 "A").1
      [("Earnings Date", some 7)] "Earnings Date" 7 rfl rfl rfl,
   (c1_calendar_then_schedule nullCalProvider 0 "A").2.1
      [("Earnings Date", none)] "Earnings Date" rfl rfl rfl,
   (c1_calendar_then_schedule emptyProvider 0 "A").2.2 .notDF rfl rfl⟩

/-- Comparing every (tz-sharing) schedule index entry against the
code's timezone-normalized "today" never raises: the awareness of the two
sides always agrees after the localize/convert branch. -/
theorem filterFuture_total (rows : List (Int × Value)) (rtz : Option Int) (today : Int) :
    filterFuture rows rtz (normalizedToday rtz today) ≠ none := by
  have htz : (normalizedToday rtz today).tz.isSome = rtz.isSome := by
    cases rtz <;> rfl
  induction rows with
  | nil => simp [filterFuture]
  | cons a rest ih =>
    obtain ⟨d, v⟩ := a
    have hcond : (rtz.isSome == (normalizedToday rtz today).tz.isSome) = true := by
      rw [htz]
      simp
    simp only [filterFuture, tsGE, hcond, if_true]
    cases hrec : filterFuture rest rtz (normalizedToday rtz today) with
    | none => exact absurd hrec ih
    | some f => simp

/-- C4 (amended): once the calendar view has fallen through, given a
schedule-view DataFrame the naive/aware comparison never raises, and if any
row qualifies (date on or after the timezone-normalized today) the resolver
returns the FIRST qualifying row in the schedule's index order — the
minimum date only when the index is sorted ascending — with status `str` of
that row's "EP" flag when the flag column exists, else "estimated". -/
theorem c4_schedule_first_qualifying (p : Provider) (today : Int) (t : String)
    (cal : CalResult) (s : SchedDF) (h1 : p.calendar t = .ok cal)
    (h2 : calStep cal = none) (h3 : p.earningsDates t = .ok (.df s)) :
    filterFuture s.rows s.tz (normalizedToday s.tz today) ≠ none ∧
    (∀ d v rest,
      filterFuture s.rows s.tz (normalizedToday s.tz today) = some ((d, v) :: rest) →
      fetch_next_earnings_date p today t =
        (some { instant := d, tz := s.tz }, if s.hasEP then pyStr v else "estimated")) := by
  refine ⟨filterFuture_total s.rows s.tz today, ?_⟩
  intro d v rest hf
  have hrows : s.rows.isEmpty = false := by
    cases hr : s.rows with
    | nil =>
      rw [hr] at hf
      simp [filterFuture] at hf
    | cons a l => rfl
  simp [fetch_next_earnings_date, h1, h2, scheduleOutcome, h3, schedStep, hrows, hf]

/-- Provider for the spec's timezone scenario: a tz-aware (UTC) schedule
entry in the future of a naive "today". -/
def tzProvider : Provider :=
  { calendar := fun _ => .ok .notDF
    earningsDates := fun _ =>
      .ok (.df { tz := some 0, hasEP := false, rows := [(100, .vNull)] }) }

/-- C4 witness: a tz-aware UTC schedule entry at day 100 resolved on naive
day 50 returns the entry, status "estimated", and the comparison does not
raise. -/
theorem c4_schedule_first_qualifying_witness :
    filterFuture [(100, Value.vNull)] (some 0) (normalizedToday (some 0) 50) ≠ none ∧
    fetch_next_earnings_date tzProvider 50 "T" =
      (some { instant := 100, tz := some 0 }, "estimated") := by
  have h := c4_schedule_first_qualifying tzProvider 50 "T" .notDF
    { tz := some 0, hasEP := false, rows := [(100, .vNull)] } rfl rfl rfl
  exact ⟨h.1, by simpa using h.2 100 .vNull [] (by rfl)⟩

/-- Provider whose schedule lists two qualifying rows in descending index
order, as the real provider's earnings history (newest first) does. -/
def descProvider : Provider :=
  { calendar := fun _ => .ok .notDF
    earningsDates := fun _ =>
      .ok (.df { tz := none, hasEP := false,
                 rows := [(20, .vNull), (10, .vNull)] }) }

/-- C4 counterexample: both rows 20 and 10 are on or after today 0, and 10
is the minimum qualifying date, but the resolver returns 20 — the first row
in index order, not the minimum. -/
theorem c4_counterexample_not_minimum :
    fetch_next_earnings_date descProvider 0 "T" =
      (some { instant := 20, tz := none }, "estimated") ∧
    ((10 : Int), Value.vNull) ∈ [((20 : Int), Value.vNull), ((10 : Int), Value.vNull)] ∧
    (0 : Int) ≤ 10 ∧ (10 : Int) < 20 := by
  decide

/-- Order claimed for any two rows of the output table: among rows with
dates the earlier date (by instant) comes first, and no dateless row
precedes a dated row. -/
def erOrder (a b : ERecord) : Prop :=
  match a.next_earnings, b.next_earnings with
  | some da, some db => da.instant ≤ db.instant
  | none, some _ => False
  | _, _ => True

/-- C5: every successfully built earnings table is pairwise ordered — dated
rows ascending by date, all dateless rows after all dated rows — and the
dateless rows appear in their original (resolution, i.e. input) order. -/
theorem c5_sort_property (p : Provider) (today : Int) (tickers : List String)
    (out : List ERecord) (h : make_earnings_table p today tickers = .ok out) :
    List.Pairwise erOrder out ∧
    out.filter (fun r => !hasDate r) =
      (tickers.map (mkERecord p today)).filter (fun r => !hasDate r) := by
  have hout : out = sortByNextEarnings (tickers.map (mkERecord p today)) := by
    unfold make_earnings_table sort_values_next_earnings at h
    by_cases hc : (tickers.map (mkERecord p today)).isEmpty = true
    · rw [if_pos hc] at h
      exact Except.noConfusion h
    · rw [if_neg hc] at h
      by_cases hm : mixedAwareness (tickers.map (mkERecord p today)) = true
      · rw [if_pos hm] at h
        exact Except.noConfusion h
      · rw [if_neg hm] at h
        injection h with h'
        exact h'.symm
  subst hout
  constructor
  · unfold sortByNextEarnings
    rw [List.pairwise_append]
    refine ⟨?_, ?_, ?_⟩
    · have hs : List.Sorted erle
          (List.insertionSort erle ((tickers.map (mkERecord p today)).filter hasDate)) :=
        List.sorted_insertionSort erle _
      refine List.Pairwise.imp_of_mem ?_ hs
      intro a b ha hb hab
      rw [List.mem_insertionSort] at ha hb
      have ha' : hasDate a = true := List.of_mem_filter ha
      have hb' : hasDate b = true := List.of_mem_filter hb
      cases hae : a.next_earnings with
      | none => rw [hasDate, hae] at ha'; simp at ha'
      | some da =>
        cases hbe : b.next_earnings with
        | none => rw [hasDate, hbe] at hb'; simp at hb'
        | some db =>
          have hda : dateKey a = da.instant := by simp [dateKey, hae]
          have hdb : dateKey b = db.instant := by simp [dateKey, hbe]
          have : da.instant ≤ db.instant := by
            rw [← hda, ← hdb]
            exact hab
          simp only [erOrder, hae, hbe]
          exact this
    · apply List.pairwise_of_forall_mem_list
      intro a _ b hb
      have hb' : (!hasDate b) = true := (List.mem_filter.mp hb).2
      have hbe : b.next_earnings = none := by
        cases hbe : b.next_earnings with
        | none => rfl
        | some d => rw [hasDate, hbe] at hb'; simp at hb'
      cases hae : a.next_earnings <;> simp [erOrder, hae, hbe]
    · intro a _ b hb
      have hb' : (!hasDate b) = true := (List.mem_filter.mp hb).2
      have hbe : b.next_earnings = none := by
        cases hbe : b.next_earnings with
        | none => rfl
        | some d => rw [hasDate, hbe] at hb'; simp at hb'
      cases hae : a.next_earnings <;> simp [erOrder, hae, hbe]
  · unfold sortByNextEarnings
    rw [List.filter_append]
    have h1 : (List.insertionSort erle
        ((tickers.map (mkERecord p today)).filter hasDate)).filter
          (fun r => !hasDate r) = [] := by
      rw [List.filter_eq_nil_iff]
      intro a ha
      rw [List.mem_insertionSort] at ha
      have := (List.mem_filter.mp ha).2
      simp [this]
    have h2 : ((tickers.map (mkERecord p today)).filter (fun r => !hasDate r)).filter
        (fun r => !hasDate r) =
        (tickers.map (mkERecord p today)).filter (fun r => !hasDate r) := by
      rw [List.filter_eq_self]
      intro a ha
      exact (List.mem_filter.mp ha).2
    rw [h1, h2, List.nil_append]

/-- Provider giving ticker "B" date 20, "A" date 10 and nothing for others. -/
def mixedProvider : Provider :=
  { calendar := fun t =>
      if t == "B" then .ok (.df [("Earnings Date", some 20)])
      else if t == "A" then .ok (.df [("Earnings Date", some 10)])
      else .ok .notDF
    earningsDates := fun _ => .ok .notDF }

/-- The table built from tickers ["B", "A", "C"]: dated rows ascending,
dateless "C" last. -/
def w5out : List ERecord :=
  [{ ticker := "A", next_earnings := some { instant := 10, tz := none },
     status := "estimated", days_to := some 10 },
   { ticker := "B", next_earnings := some { instant := 20, tz := none },
     status := "estimated", days_to := some 20 },
   { ticker := "C", next_earnings := none, status := "unknown", days_to := none }]

/-- C5 witness: the concrete three-ticker table is pairwise ordered with
its dateless row kept last in input order. -/
theorem c5_sort_property_witness :
    List.Pairwise erOrder w5out ∧
    w5out.filter (fun r => !hasDate r) =
      (["B", "A", "C"].map (mkERecord mixedProvider 0)).filter (fun r => !hasDate r) :=
  c5_sort_property mixedProvider 0 ["B", "A", "C"] w5out (by decide)

